import Mathlib

/-!
Verification of the bot-dashboard normalization, timeline and fetch logic
(src/bot_dashboard.py), shallowly embedded in Lean.

Modelling conventions:
* Python floats are modelled as exact rationals (`ℚ`); every formula in the
  program is plain field arithmetic, so the embedding is exact up to
  floating-point rounding, which the spec does not address.
* A record field that may be absent is an `Option`; `none` means the key is
  missing from the record/row.
* Python truthiness on an optional float (`if latest_price and entry:`) is
  `none`/`0` falsy, everything else truthy; on a string, `""` is falsy.
* `str.upper`/`str.lower` are modelled per character (exact on the ASCII
  identifiers the program compares against).
-/

namespace BotDashboard

/-- Python `s.lower()`, character by character. -/
def strLower (s : String) : String := String.mk (s.data.map Char.toLower)

/-- Python `s.upper()`, character by character. -/
def strUpper (s : String) : String := String.mk (s.data.map Char.toUpper)

/-- Test that `needle` is a prefix of `hay` (over character lists). -/
def startsWithList (needle hay : List Char) : Bool :=
  match needle, hay with
  | [], _ => true
  | _ :: _, [] => false
  | a :: as, b :: bs => a == b && startsWithList as bs

/-- Python `needle in hay` for strings, as character-list containment. -/
def containsList (needle hay : List Char) : Bool :=
  match hay with
  | [] => needle.isEmpty
  | _ :: t => startsWithList needle hay || containsList needle t

/-- The fixed intent lookup table `ACTION_INTENT_MAP` from the source. -/
def ACTION_INTENT_MAP : List (String × String) :=
  [("ENTER_LONG", "enter_long"),
   ("ENTER_SHORT", "enter_short"),
   ("ADD", "add"),
   ("REDUCE", "reduce"),
   ("CLOSE", "flat"),
   ("HOLD", "hold"),
   ("REVERSE", "reverse")]

/-- Numeric parse `float(pos.get(k, d) or d)`: missing key or falsy value (0) gives `d`. -/
def getNum (v : Option ℚ) (d : ℚ) : ℚ :=
  match v with
  | none => d
  | some x => if x = 0 then d else x

/-- A raw position record; the two overlapping schemas share one record
type, `none` marking an absent key. -/
structure PositionRaw where
  leverage : Option ℚ := none
  entry_price : Option ℚ := none
  notional_usdt : Option ℚ := none
  side : Option String := none
  qty : Option ℚ := none
deriving DecidableEq, Repr

/-- One row produced by `normalize_positions`. `side` is the loop's local
side variable; `typeDisp` is the rendered "Type" cell derived from it;
`roi` is the "ROI%" cell. -/
structure PositionView where
  symbol : String
  side : String
  typeDisp : String
  collateral : ℚ
  leverage : ℚ
  notional : ℚ
  entry : ℚ
  pnl : ℚ
  roi : ℚ
deriving DecidableEq, Repr

/-- Key test `"buy" in str(key).lower()`: case-insensitive substring test. -/
def containsBuy (key : String) : Bool :=
  containsList ("buy".data) ((strLower key).data)

/-- The loop body of `normalize_positions` for one `(key, pos)` entry. -/
def normalizeOne (latest_price : Option ℚ) (key : String) (pos : PositionRaw) :
    PositionView :=
  let lev := getNum pos.leverage 1
  let entry := getNum pos.entry_price 0
  if pos.notional_usdt.isSome || pos.side.isSome then
    -- v2/v3 style
    let notional := getNum pos.notional_usdt 0
    let sd := strLower (pos.side.getD "long")
    let collateral := if lev ≠ 0 then notional / lev else 0
    let pnl :=
      match latest_price with
      | some lp =>
          if lp ≠ 0 ∧ entry ≠ 0 then
            if sd = "long" then (lp - entry) / entry * notional
            else (entry - lp) / entry * notional
          else 0
      | none => 0
    let roi := if collateral > 0 then pnl / collateral * 100 else 0
    { symbol := key, side := sd,
      typeDisp := if sd = "long" then "🟢 LONG" else "🔴 SHORT",
      collateral := collateral, leverage := lev, notional := notional,
      entry := entry, pnl := pnl, roi := roi }
  else
    -- old style
    let qty := getNum pos.qty 0
    let collateral := if lev ≠ 0 then qty / lev else 0
    let sd := if containsBuy key then "long" else "short"
    let pnl :=
      match latest_price with
      | some lp =>
          if lp ≠ 0 ∧ entry ≠ 0 then
            if sd = "long" then (lp - entry) / entry * qty
            else (entry - lp) / entry * qty
          else 0
      | none => 0
    let roi := if collateral > 0 then pnl / collateral * 100 else 0
    { symbol := key, side := sd,
      typeDisp := if sd = "long" then "🟢 LONG" else "🔴 SHORT",
      collateral := collateral, leverage := lev, notional := qty,
      entry := entry, pnl := pnl, roi := roi }

/-- Full `normalize_positions`: empty-mapping early return, then the per-entry
loop over the mapping's items in iteration order. -/
def normalize_positions (latest_price : Option ℚ)
    (positions : List (String × PositionRaw)) : List PositionView :=
  if positions.isEmpty then []
  else positions.map fun kv => normalizeOne latest_price kv.1 kv.2

theorem normalize_positions_eq_map (latest_price : Option ℚ)
    (positions : List (String × PositionRaw)) :
    normalize_positions latest_price positions
      = positions.map fun kv => normalizeOne latest_price kv.1 kv.2 := by
  cases positions <;> simp [normalize_positions]

/-- Per-cell `intent_norm`: upper-case, look up, else keep the
`astype(str)` original (the `fillna` column). -/
def intentNorm (s : String) : String :=
  match ACTION_INTENT_MAP.lookup (strUpper s) with
  | some v => v
  | none => s

/-- The five marker groups filtered out of the chart frame. -/
def markerGroups : List (List String) :=
  [["enter_long"], ["enter_short"], ["add"], ["reduce"], ["flat", "reverse"]]

/-- A normalized intent value lands in at least one marker group. -/
def inAnyMarkerGroup (s : String) : Bool :=
  markerGroups.any fun g => g.contains s

/-- One fetched `bot_logs` row; `none` marks an absent key. -/
structure LogRecord where
  created_at : Option String := none
  timestamp : Option String := none
  market_price : Option ℚ := none
  intent : Option String := none
  action : Option String := none
  rationale : Option String := none
  thesis : Option String := none
deriving DecidableEq, Repr

/-- Stringification `astype(str)` of a cell of a column built from these records: an absent
key is a NaN cell, stringified as "nan". -/
def colStr (v : Option String) : String :=
  match v with
  | some s => s
  | none => "nan"

/-- The chart's time column: the frame keeps `created_at` when any record
has it, otherwise the column is replaced by `timestamp`. -/
def selectedTs (logs : List LogRecord) (r : LogRecord) : Option String :=
  if logs.any fun x => x.created_at.isSome then r.created_at else r.timestamp

/-- Rows surviving `dropna(subset=["created_at"])`: each paired with its
parsed timestamp; `parse` stands for the external ISO-8601 parser
(`pd.to_datetime(..., errors="coerce")`), `none` meaning NaT. -/
def chartRows (parse : String → Option ℚ) (logs : List LogRecord) :
    List (ℚ × LogRecord) :=
  logs.filterMap fun r => ((selectedTs logs r).bind parse).map fun t => (t, r)

/-- Sorting `df_chart.sort_values("created_at")`: ascending by parsed timestamp. -/
def chartSorted (parse : String → Option ℚ) (logs : List LogRecord) :
    List (ℚ × LogRecord) :=
  (chartRows parse logs).mergeSort fun a b => decide (a.1 ≤ b.1)

/-- Column selection for `intent_norm`: the `intent` column if the frame has it, else
`action` column, else the literal "hold". -/
def intentNormOfRecord (logs : List LogRecord) (r : LogRecord) : String :=
  if logs.any fun x => x.intent.isSome then intentNorm (colStr r.intent)
  else if logs.any fun x => x.action.isSome then intentNorm (colStr r.action)
  else "hold"

/-- One marker series: the chart rows whose normalized intent is in `g`. -/
def markerRows (g : List String) (parse : String → Option ℚ)
    (logs : List LogRecord) : List (ℚ × LogRecord) :=
  (chartSorted parse logs).filter fun tr =>
    g.contains (intentNormOfRecord logs tr.2)

/-- Python `a or b` for an optional string: `none` and `""` fall through. -/
def orEmpty (a : Option String) (b : String) : String :=
  match a with
  | none => b
  | some s => if s = "" then b else s

/-- One row of the "Recent Activity" table. -/
structure RecentRow where
  time : String
  decision : String
  thesis : String
deriving DecidableEq, Repr

/-- The recent-activity row built from one raw log record: display time is
`ts[11:19]` when the raw string contains "T", the decision is the raw
intent/action, the thesis is truncated to 160 characters. -/
def recentRow (r : LogRecord) : RecentRow :=
  let ts := orEmpty r.created_at (orEmpty r.timestamp "")
  let tshort :=
    if ts.data.contains 'T' then String.mk ((ts.data.drop 11).take 8) else ts
  let intent := orEmpty r.intent (orEmpty r.action "")
  let thesis := String.mk ((orEmpty r.rationale (orEmpty r.thesis "")).data.take 160)
  { time := tshort, decision := intent, thesis := thesis }

/-- The "Recent Activity" view: the first 25 raw records in store order. -/
def recentActivity (logs : List LogRecord) : List RecentRow :=
  (logs.take 25).map recentRow

/-- Session `latest_price`: the `market_price` of the first fetched log record, `none`
when the list is empty or the record lacks the field. -/
def latestPriceFromLogs (logs : List LogRecord) : Option ℚ :=
  match logs with
  | [] => none
  | r :: _ => r.market_price

/-- The Latest Price metric renders "N/A" exactly when the session value is
falsy (`none` or 0). -/
def latestPriceDisplaysNA (lp : Option ℚ) : Bool :=
  match lp with
  | none => true
  | some x => decide (x = 0)

/-- Fetcher `fetch_bot_logs`: try ordering by `created_at`, on any exception retry
once ordered by `timestamp`; `q col` stands for executing the query ordered
by `col` descending with the limit applied, `Except.error` for a raised
exception and `none` for a falsy `res.data`. -/
def fetch_bot_logs {ε α : Type} (q : String → Except ε (Option (List α))) :
    Except ε (List α) :=
  match q "created_at" with
  | Except.ok d => Except.ok (d.getD [])
  | Except.error _ =>
      match q "timestamp" with
      | Except.ok d => Except.ok (d.getD [])
      | Except.error e => Except.error e

/-- The order columns `fetch_bot_logs` attempts, in order. -/
def fetch_bot_logs_attempts {ε α : Type}
    (q : String → Except ε (Option (List α))) : List String :=
  match q "created_at" with
  | Except.ok _ => ["created_at"]
  | Except.error _ => ["created_at", "timestamp"]

/-- Fetcher `fetch_trade_history`: same try/fallback shape as `fetch_bot_logs`. -/
def fetch_trade_history {ε α : Type} (q : String → Except ε (Option (List α))) :
    Except ε (List α) :=
  match q "created_at" with
  | Except.ok d => Except.ok (d.getD [])
  | Except.error _ =>
      match q "timestamp" with
      | Except.ok d => Except.ok (d.getD [])
      | Except.error e => Except.error e

/-- The order columns `fetch_trade_history` attempts, in order. -/
def fetch_trade_history_attempts {ε α : Type}
    (q : String → Except ε (Option (List α))) : List String :=
  match q "created_at" with
  | Except.ok _ => ["created_at"]
  | Except.error _ => ["created_at", "timestamp"]

theorem getNum_zero (v : Option ℚ) : getNum v 0 = v.getD 0 := by
  cases v with
  | none => rfl
  | some x =>
      by_cases hx : x = 0 <;> simp [getNum, hx]

theorem normalizeOne_leverage (lp : Option ℚ) (key : String)
    (pos : PositionRaw) :
    (normalizeOne lp key pos).leverage = getNum pos.leverage 1 := by
  unfold normalizeOne
  split <;> simp

theorem normalizeOne_entry (lp : Option ℚ) (key : String) (pos : PositionRaw) :
    (normalizeOne lp key pos).entry = getNum pos.entry_price 0 := by
  unfold normalizeOne
  split <;> simp

theorem normalizeOne_side (lp : Option ℚ) (key : String) (pos : PositionRaw) :
    (normalizeOne lp key pos).side =
      if pos.notional_usdt.isSome || pos.side.isSome then
        strLower (pos.side.getD "long")
      else if containsBuy key then "long" else "short" := by
  unfold normalizeOne
  split <;> rename_i h <;> simp [h]

theorem normalizeOne_notional (lp : Option ℚ) (key : String)
    (pos : PositionRaw) :
    (normalizeOne lp key pos).notional =
      if pos.notional_usdt.isSome || pos.side.isSome then
        getNum pos.notional_usdt 0
      else getNum pos.qty 0 := by
  unfold normalizeOne
  split <;> rename_i h <;> simp [h]

theorem normalizeOne_collateral (lp : Option ℚ) (key : String)
    (pos : PositionRaw) :
    (normalizeOne lp key pos).collateral =
      if getNum pos.leverage 1 ≠ 0 then
        (normalizeOne lp key pos).notional / getNum pos.leverage 1
      else 0 := by
  rw [normalizeOne_notional]
  unfold normalizeOne
  split <;> rename_i h <;> simp [h]

theorem normalizeOne_pnl_none (key : String) (pos : PositionRaw) :
    (normalizeOne none key pos).pnl = 0 := by
  unfold normalizeOne
  split <;> simp

theorem normalizeOne_pnl_some (x : ℚ) (key : String) (pos : PositionRaw) :
    (normalizeOne (some x) key pos).pnl =
      if x ≠ 0 ∧ getNum pos.entry_price 0 ≠ 0 then
        if (normalizeOne (some x) key pos).side = "long" then
          (x - getNum pos.entry_price 0) / getNum pos.entry_price 0
            * (normalizeOne (some x) key pos).notional
        else
          (getNum pos.entry_price 0 - x) / getNum pos.entry_price 0
            * (normalizeOne (some x) key pos).notional
      else 0 := by
  rw [normalizeOne_side, normalizeOne_notional]
  unfold normalizeOne
  split <;> rename_i h <;> simp [h]

theorem normalizeOne_roi (lp : Option ℚ) (key : String) (pos : PositionRaw) :
    (normalizeOne lp key pos).roi =
      if (normalizeOne lp key pos).collateral > 0 then
        (normalizeOne lp key pos).pnl / (normalizeOne lp key pos).collateral
          * 100
      else 0 := by
  rw [normalizeOne_collateral, normalizeOne_notional]
  unfold normalizeOne
  split <;> rename_i h <;> simp [h]

/-- Claim C9: a current-variant long position with entry 100, latest price
110, notional 1000 and leverage 10 normalizes to collateral 100, pnl 100
and ROI% 100. -/
theorem claim_C9 :
    ((normalize_positions (some 110)
        [("BTC/USDT:USDT",
          { leverage := some 10, entry_price := some 100,
            notional_usdt := some 1000, side := some "long" })]).map
      fun v => (v.collateral, v.pnl, v.roi)) = [(100, 100, 100)] := by
  have h : strLower "long" = "long" := rfl
  simp [normalize_positions, normalizeOne, getNum, h]
  norm_num

/-- Claim C1 counterexample: a legacy-variant entry whose `leverage` field
equals 0 together with `qty = 100` yields collateral 100, not 0 — the falsy
leverage is coerced to the default 1 before the division. -/
theorem claim_C1_counterexample :
    (normalizeOne none "ETH/USDT:USDT_sell"
      { leverage := some 0, qty := some 100 }).collateral ≠ 0 := by
  rw [normalizeOne_collateral, normalizeOne_notional]
  norm_num [getNum]

/-- Claim C1 (amended): for a legacy-variant entry whose `leverage` field
equals 0, the falsy leverage is coerced to the default 1, so no division by
zero occurs; collateral equals the parsed qty (default 0), and collateral
and ROI% are 0 exactly in the case qty is missing or 0. -/
theorem claim_C1 (lp : Option ℚ) (key : String) (pos : PositionRaw)
    (h1 : pos.notional_usdt = none) (h2 : pos.side = none)
    (h3 : pos.leverage = some 0) :
    (normalizeOne lp key pos).leverage = 1 ∧
    (normalizeOne lp key pos).collateral = pos.qty.getD 0 ∧
    (pos.qty.getD 0 = 0 →
      (normalizeOne lp key pos).collateral = 0 ∧
      (normalizeOne lp key pos).roi = 0) := by
  have hlev : (normalizeOne lp key pos).leverage = 1 := by
    rw [normalizeOne_leverage, h3]
    simp [getNum]
  have hcol : (normalizeOne lp key pos).collateral = pos.qty.getD 0 := by
    rw [normalizeOne_collateral, normalizeOne_notional, h1, h2, h3]
    simp only [getNum_zero]
    norm_num [getNum]
  refine ⟨hlev, hcol, fun hq => ?_⟩
  have hc0 : (normalizeOne lp key pos).collateral = 0 := by rw [hcol, hq]
  refine ⟨hc0, ?_⟩
  rw [normalizeOne_roi, hc0]
  norm_num

theorem claim_C1_witness :
    (normalizeOne none "ETH/USDT:USDT_sell"
        { leverage := some 0 }).leverage = 1 ∧
    (normalizeOne none "ETH/USDT:USDT_sell"
        { leverage := some 0 }).collateral = 0 ∧
    (normalizeOne none "ETH/USDT:USDT_sell"
        { leverage := some 0 }).roi = 0 := by
  have h := claim_C1 none "ETH/USDT:USDT_sell" { leverage := some 0 }
    rfl rfl rfl
  exact ⟨h.1, (h.2.2 rfl).1, (h.2.2 rfl).2⟩

/-- Claim C3: leverage is parsed from the `leverage` field with default 1
when the field is missing or falsy (including 0), and `entry_price` is
parsed with default 0 when missing. -/
theorem claim_C3 (lp : Option ℚ) (key : String) (pos : PositionRaw) :
    (pos.leverage = none → (normalizeOne lp key pos).leverage = 1) ∧
    (pos.leverage = some 0 → (normalizeOne lp key pos).leverage = 1) ∧
    (∀ x : ℚ, pos.leverage = some x → x ≠ 0 →
      (normalizeOne lp key pos).leverage = x) ∧
    (pos.entry_price = none → (normalizeOne lp key pos).entry = 0) ∧
    (∀ x : ℚ, pos.entry_price = some x → x ≠ 0 →
      (normalizeOne lp key pos).entry = x) := by
  refine ⟨fun h => ?_, fun h => ?_, fun x hx hx0 => ?_, fun h => ?_,
    fun x hx hx0 => ?_⟩
  · simp [normalizeOne_leverage, getNum, h]
  · simp [normalizeOne_leverage, getNum, h]
  · simp [normalizeOne_leverage, getNum, hx, hx0]
  · simp [normalizeOne_entry, getNum, h]
  · simp [normalizeOne_entry, getNum, hx, hx0]

theorem claim_C3_witness :
    (normalizeOne none "k" ({} : PositionRaw)).leverage = 1 ∧
    (normalizeOne none "k" { leverage := some 0 }).leverage = 1 ∧
    (normalizeOne none "k" { leverage := some 5 }).leverage = 5 ∧
    (normalizeOne none "k" ({} : PositionRaw)).entry = 0 ∧
    (normalizeOne none "k" { entry_price := some 3 }).entry = 3 := by
  refine ⟨(claim_C3 none "k" {}).1 rfl,
    (claim_C3 none "k" { leverage := some 0 }).2.1 rfl,
    (claim_C3 none "k" { leverage := some 5 }).2.2.1 5 rfl (by norm_num),
    (claim_C3 none "k" {}).2.2.2.1 rfl,
    (claim_C3 none "k" { entry_price := some 3 }).2.2.2.2 3 rfl (by norm_num)⟩

/-- Claim C5: pnl is 0 whenever the latest price is absent or 0 or the
entry price is absent or 0; otherwise it is the directional formula
`(latest − entry)/entry × notional` for a long position and
`(entry − latest)/entry × notional` for a short one. -/
theorem claim_C5 (lp : Option ℚ) (key : String) (pos : PositionRaw) :
    (lp = none → (normalizeOne lp key pos).pnl = 0) ∧
    (lp = some 0 → (normalizeOne lp key pos).pnl = 0) ∧
    ((pos.entry_price = none ∨ pos.entry_price = some 0) →
      (normalizeOne lp key pos).pnl = 0) ∧
    (∀ x : ℚ, lp = some x → x ≠ 0 → (normalizeOne lp key pos).entry ≠ 0 →
      ((normalizeOne lp key pos).side = "long" →
        (normalizeOne lp key pos).pnl
          = (x - (normalizeOne lp key pos).entry)
              / (normalizeOne lp key pos).entry
              * (normalizeOne lp key pos).notional) ∧
      ((normalizeOne lp key pos).side = "short" →
        (normalizeOne lp key pos).pnl
          = ((normalizeOne lp key pos).entry - x)
              / (normalizeOne lp key pos).entry
              * (normalizeOne lp key pos).notional)) := by
  refine ⟨fun h => ?_, fun h => ?_, fun h => ?_, fun x hx hx0 hent => ?_⟩
  · rw [h, normalizeOne_pnl_none]
  · rw [h, normalizeOne_pnl_some]
    norm_num
  · cases lp with
    | none => rw [normalizeOne_pnl_none]
    | some y =>
        have he : getNum pos.entry_price 0 = 0 := by
          rcases h with h | h <;> simp [getNum, h]
        rw [normalizeOne_pnl_some]
        simp [he]
  · subst hx
    rw [normalizeOne_entry] at hent
    have hcond : x ≠ 0 ∧ getNum pos.entry_price 0 ≠ 0 := ⟨hx0, hent⟩
    constructor
    · intro hside
      rw [normalizeOne_pnl_some, normalizeOne_entry]
      rw [if_pos hcond, if_pos hside]
    · intro hside
      have hne : ¬(normalizeOne (some x) key pos).side = "long" := by
        rw [hside]; decide
      rw [normalizeOne_pnl_some, normalizeOne_entry]
      rw [if_pos hcond, if_neg hne]

theorem claim_C5_witness :
    ((normalizeOne (some 110) "BTC"
        { entry_price := some 100, side := some "long",
          notional_usdt := some 1000 }).pnl = 100) ∧
    ((normalizeOne none "BTC"
        { entry_price := some 100, side := some "long",
          notional_usdt := some 1000 }).pnl = 0) := by
  constructor
  · have h := (claim_C5 (some 110) "BTC"
      { entry_price := some 100, side := some "long",
        notional_usdt := some 1000 }).2.2.2 110 rfl (by norm_num)
      (by rw [normalizeOne_entry]; norm_num [getNum])
    have hside : (normalizeOne (some 110) "BTC"
        { entry_price := some 100, side := some "long",
          notional_usdt := some 1000 }).side = "long" := by
      rw [normalizeOne_side]
      decide
    rw [h.1 hside, normalizeOne_entry, normalizeOne_notional]
    norm_num [getNum]
  · exact (claim_C5 none "BTC"
      { entry_price := some 100, side := some "long",
        notional_usdt := some 1000 }).1 rfl

theorem normalizeOne_side_someSide (lp : Option ℚ) (key : String)
    (levF entryF notF qtyF : Option ℚ) (s : String) :
    (normalizeOne lp key
      { leverage := levF, entry_price := entryF, notional_usdt := notF,
        side := some s, qty := qtyF }).side = strLower s := by
  rw [normalizeOne_side]
  simp

theorem normalizeOne_notional_someSide (lp : Option ℚ) (key : String)
    (levF entryF notF qtyF : Option ℚ) (s : String) :
    (normalizeOne lp key
      { leverage := levF, entry_price := entryF, notional_usdt := notF,
        side := some s, qty := qtyF }).notional = getNum notF 0 := by
  rw [normalizeOne_notional]
  simp

/-- Claim C7: a record with a `notional_usdt` or `side` key is treated as
current-variant (side is the lower-cased `side` field defaulting to "long",
notional is `notional_usdt` defaulting to 0); otherwise it is
legacy-variant (notional is `qty` defaulting to 0, side is long exactly
when the key contains the case-insensitive substring "buy"). -/
theorem claim_C7 (lp : Option ℚ) (key : String) (pos : PositionRaw) :
    ((pos.notional_usdt.isSome || pos.side.isSome) = true →
      (normalizeOne lp key pos).side = strLower (pos.side.getD "long") ∧
      (normalizeOne lp key pos).notional = pos.notional_usdt.getD 0) ∧
    (pos.notional_usdt = none → pos.side = none →
      (normalizeOne lp key pos).notional = pos.qty.getD 0 ∧
      (normalizeOne lp key pos).side =
        (if containsBuy key then "long" else "short")) := by
  constructor
  · intro h
    rw [normalizeOne_side, normalizeOne_notional, if_pos h, if_pos h,
      getNum_zero]
    exact ⟨rfl, rfl⟩
  · intro h1 h2
    rw [normalizeOne_side, normalizeOne_notional, h1, h2]
    simp [getNum_zero]

theorem claim_C7_witness :
    (normalizeOne none "BTC" { side := some "Long" }).side = strLower "Long" ∧
    (normalizeOne none "BTC" { side := some "Long" }).notional = 0 ∧
    (normalizeOne none "BTC_buy" { qty := some 7 }).notional = 7 ∧
    (normalizeOne none "BTC_buy" { qty := some 7 }).side = "long" := by
  have h1 := (claim_C7 none "BTC" { side := some "Long" }).1 (by rfl)
  have h2 := (claim_C7 none "BTC_buy" { qty := some 7 }).2 rfl rfl
  refine ⟨h1.1, ?_, ?_, ?_⟩
  · rw [h1.2]
    rfl
  · rw [h2.1]
    rfl
  · rw [h2.2]
    decide

/-- Claim C8: with identical numeric inputs, a short position's pnl is the
negation of the long position's pnl. -/
theorem claim_C8 (lp : Option ℚ) (key : String)
    (levF entryF notF qtyF : Option ℚ) :
    (normalizeOne lp key
        { leverage := levF, entry_price := entryF, notional_usdt := notF,
          side := some "short", qty := qtyF }).pnl
      = -(normalizeOne lp key
          { leverage := levF, entry_price := entryF, notional_usdt := notF,
            side := some "long", qty := qtyF }).pnl := by
  cases lp with
  | none => rw [normalizeOne_pnl_none, normalizeOne_pnl_none, neg_zero]
  | some x =>
      rw [normalizeOne_pnl_some, normalizeOne_pnl_some,
        normalizeOne_side_someSide, normalizeOne_side_someSide,
        normalizeOne_notional_someSide, normalizeOne_notional_someSide]
      have e1 : strLower "short" = "short" := rfl
      have e2 : strLower "long" = "long" := rfl
      rw [e1, e2]
      rw [if_neg (show ¬("short" : String) = "long" by decide)]
      rw [if_pos (rfl : ("long" : String) = "long")]
      split_ifs with hc
      · ring
      · norm_num

/-- Claim C2 counterexample: the unmapped intent "UNKNOWN_X" passes through
unchanged, not lower-cased — the `fillna` column is the raw `astype(str)`
original. -/
theorem claim_C2_counterexample :
    intentNorm "UNKNOWN_X" = "UNKNOWN_X" ∧
    intentNorm "UNKNOWN_X" ≠ "unknown_x" := by
  decide

/-- Claim C2 (amended): a record whose upper-cased intent (or action) is
not a key of the lookup table keeps the original value unchanged (not
lower-cased), and it lands in a marker group exactly when the original
value is itself the label "flat" (the exit/reverse group); every other
unmapped value is plotted in no group. -/
theorem claim_C2 (s : String)
    (h : ACTION_INTENT_MAP.lookup (strUpper s) = none) :
    intentNorm s = s ∧
    (inAnyMarkerGroup (intentNorm s) = true ↔ s = "flat") := by
  have hs : intentNorm s = s := by
    rw [intentNorm, h]
  refine ⟨hs, ?_⟩
  rw [hs]
  constructor
  · intro hmem
    have hcases : s = "enter_long" ∨ s = "enter_short" ∨ s = "add" ∨
        s = "reduce" ∨ s = "flat" ∨ s = "reverse" := by
      simpa [inAnyMarkerGroup, markerGroups] using hmem
    rcases hcases with h1 | h1 | h1 | h1 | h1 | h1 <;> subst h1 <;>
      first
        | rfl
        | exact absurd h (by decide)
  · intro h1
    subst h1
    decide

theorem claim_C2_witness :
    intentNorm "wait" = "wait" ∧
    (inAnyMarkerGroup (intentNorm "wait") = true ↔ "wait" = "flat") :=
  claim_C2 "wait" (by decide)

/-- Claim C4: when the query ordered by `created_at` raises, exactly one
fallback ordered by `timestamp` is attempted, and when the fallback also
raises its exception propagates to the caller — for both list fetches. -/
theorem claim_C4 {ε α : Type}
    (qLogs qHist : String → Except ε (Option (List α)))
    (e1 e2 e3 e4 : ε)
    (h1 : qLogs "created_at" = Except.error e1)
    (h2 : qLogs "timestamp" = Except.error e2)
    (h3 : qHist "created_at" = Except.error e3)
    (h4 : qHist "timestamp" = Except.error e4) :
    fetch_bot_logs_attempts qLogs = ["created_at", "timestamp"] ∧
    fetch_bot_logs qLogs = Except.error e2 ∧
    fetch_trade_history_attempts qHist = ["created_at", "timestamp"] ∧
    fetch_trade_history qHist = Except.error e4 := by
  refine ⟨?_, ?_, ?_, ?_⟩ <;>
    simp [fetch_bot_logs, fetch_bot_logs_attempts, fetch_trade_history,
      fetch_trade_history_attempts, h1, h2, h3, h4]

theorem claim_C4_witness :
    fetch_bot_logs_attempts
        (fun c => if c = "created_at"
          then (Except.error 1 : Except ℕ (Option (List ℕ)))
          else Except.error 2)
      = ["created_at", "timestamp"] ∧
    fetch_bot_logs
        (fun c => if c = "created_at"
          then (Except.error 1 : Except ℕ (Option (List ℕ)))
          else Except.error 2)
      = Except.error 2 ∧
    fetch_trade_history_attempts
        (fun c => if c = "created_at"
          then (Except.error 1 : Except ℕ (Option (List ℕ)))
          else Except.error 2)
      = ["created_at", "timestamp"] ∧
    fetch_trade_history
        (fun c => if c = "created_at"
          then (Except.error 1 : Except ℕ (Option (List ℕ)))
          else Except.error 2)
      = Except.error 2 :=
  claim_C4 _ _ 1 2 1 2 rfl rfl rfl rfl

/-- Claim C6: a record whose selected timestamp string fails parsing is
excluded from the sorted chart series and from every marker group, while
the recent-activity view — built from the first 25 raw records in store
order — still contains its row. -/
theorem claim_C6 (parse : String → Option ℚ) (logs : List LogRecord)
    (r : LogRecord) (ts : String)
    (hsel : selectedTs logs r = some ts) (hfail : parse ts = none) :
    (∀ t : ℚ, (t, r) ∉ chartSorted parse logs) ∧
    (∀ t : ℚ, ∀ g ∈ markerGroups, (t, r) ∉ markerRows g parse logs) ∧
    (r ∈ logs.take 25 → recentRow r ∈ recentActivity logs) := by
  have hmain : ∀ t : ℚ, (t, r) ∉ chartRows parse logs := by
    intro t hmem
    simp only [chartRows] at hmem
    rcases List.mem_filterMap.mp hmem with ⟨a, _, hfa⟩
    rcases Option.map_eq_some'.mp hfa with ⟨t', ht', heq⟩
    have ha : a = r := congrArg Prod.snd heq
    subst ha
    rw [hsel] at ht'
    simp [hfail] at ht'
  have hsorted : ∀ t : ℚ, (t, r) ∉ chartSorted parse logs := by
    intro t hmem
    exact hmain t (List.mem_mergeSort.mp hmem)
  refine ⟨hsorted, ?_, ?_⟩
  · intro t g _ hmem
    exact hsorted t (List.mem_filter.mp hmem).1
  · intro h
    exact List.mem_map_of_mem recentRow h

theorem claim_C6_witness :
    ((0 : ℚ), ({ timestamp := some "not-a-date" } : LogRecord))
        ∉ chartSorted (fun _ => none) [{ timestamp := some "not-a-date" }] ∧
    recentRow { timestamp := some "not-a-date" }
        ∈ recentActivity [{ timestamp := some "not-a-date" }] := by
  have h := claim_C6 (fun _ => none) [{ timestamp := some "not-a-date" }]
    { timestamp := some "not-a-date" } "not-a-date" (by decide) rfl
  exact ⟨h.1 0, h.2.2 (by decide)⟩

/-- Claim C10: the latest price is the `market_price` of the first fetched
log record in store order; it is `none` when the list is empty or the
record lacks the field, in which case the metric shows "N/A" and every
pnl computed with it is 0. -/
theorem claim_C10 (logs : List LogRecord) :
    latestPriceFromLogs logs = logs.head?.bind (fun r => r.market_price) ∧
    (logs = [] → latestPriceFromLogs logs = none) ∧
    (∀ r rest, logs = r :: rest → latestPriceFromLogs logs = r.market_price) ∧
    (latestPriceFromLogs logs = none →
      latestPriceDisplaysNA (latestPriceFromLogs logs) = true ∧
      ∀ key pos, (normalizeOne (latestPriceFromLogs logs) key pos).pnl = 0) := by
  refine ⟨?_, fun h => ?_, fun r rest h => ?_, fun h => ?_⟩
  · cases logs <;> simp [latestPriceFromLogs]
  · subst h
    rfl
  · subst h
    rfl
  · rw [h]
    exact ⟨rfl, fun key pos => normalizeOne_pnl_none key pos⟩

theorem claim_C10_witness :
    latestPriceFromLogs [] = none ∧
    latestPriceDisplaysNA (latestPriceFromLogs []) = true ∧
    (normalizeOne (latestPriceFromLogs []) "BTC/USDT:USDT"
      { qty := some 5 }).pnl = 0 := by
  have h := claim_C10 []
  exact ⟨h.2.1 rfl, (h.2.2.2 rfl).1,
    (h.2.2.2 rfl).2 "BTC/USDT:USDT" { qty := some 5 }⟩

end BotDashboard
